import Mathlib

/-!
Verification of the sc-compression repository (Supercell asset container
decompressor) against its natural-language specification.

The repository contains two near-identical Python implementations of the same
class:
- `src/sc_compression/__init__.py`   — embedded below in namespace `InitPy`;
- `src/sc_compression/ScCompression.py` — embedded below in namespace `ClassPy`.

Bytes are modelled as `Fin 256`, buffers as `List (Fin 256)`, Python strings as
lists of Unicode code points (`List Nat`).  Python exceptions are modelled with
`Except PyError`.  The external LZMA decoder (`lzma.decompress`) is a black box
and is passed in as a function parameter `D : Buf → Except PyError Buf`.
File writes performed during decompression are modelled as an explicit trace of
`(path, contents)` pairs returned alongside the result.
-/

namespace ScComp

set_option autoImplicit false
set_option maxRecDepth 8192

/-- A byte, exactly the values 0..255 that a Python `bytes` element can take. -/
abbrev Byte := Fin 256

/-- A Python `bytes` value: an immutable sequence of bytes. -/
abbrev Buf := List Byte

/-- Code points of a Lean string literal, used to model Python `str` constants
such as `"sc"` or `"5d0000"` as lists of Unicode code points. -/
def strCp (s : String) : List Nat := s.data.map Char.toNat

/-- Python slicing `l[a:b]` for `0 ≤ a ≤ b`: drop `a` then keep `b - a`.
Out-of-range slices clamp, exactly as in Python. -/
def pySlice (a b : Nat) (l : Buf) : Buf := (l.drop a).take (b - a)

/-- Code point of the lowercase hex digit for `n < 16`, as produced by Python
`bytes.hex()` (digits `0`-`9` then `a`-`f`). -/
def hexDigitCp (n : Nat) : Nat := if n < 10 then 48 + n else 87 + n

/-- Python `bytes.hex()`: two lowercase hex digits per byte. -/
def bytesHex (l : Buf) : List Nat := l.flatMap fun b => [hexDigitCp (b.val / 16), hexDigitCp (b.val % 16)]

/-- Python `str.lower` on a single code point, returning a list because the
mapping of U+0130 expands to two code points.  Modelled exactly on ASCII and on
the code points whose lowercase form is ASCII (U+212A KELVIN SIGN and the
expanding U+0130); every remaining non-ASCII code point is mapped to itself.
This is sound for every comparison in this development because the true
lowercase form of any other non-ASCII code point is again non-ASCII, so
comparisons against the all-ASCII constants `"sc"`, `"sclz"`, `"sig:"` and
`"5d0000"` are unaffected. -/
def pyLowerCp (c : Nat) : List Nat :=
  if 0x41 ≤ c ∧ c ≤ 0x5A then [c + 0x20]
  else if c = 0x130 then [0x69, 0x307]
  else if c = 0x212A then [0x6B]
  else if c = 0x212B then [0xE5]
  else [c]

/-- Python `str.lower` on a string of code points. -/
def pyLower (l : List Nat) : List Nat := l.flatMap pyLowerCp

/-- Whether a byte is a UTF-8 continuation byte (`0x80`-`0xBF`). -/
def isCont (b : Byte) : Prop := 0x80 ≤ b.val ∧ b.val ≤ 0xBF

instance (b : Byte) : Decidable (isCont b) := by unfold isCont; infer_instance

/-- Strict UTF-8 decoding as performed by Python `bytes.decode("utf-8")`:
rejects truncated sequences, stray continuation bytes, overlong encodings,
surrogate code points and code points above U+10FFFF.  Returns the decoded
code points, or `none` where Python raises `UnicodeDecodeError`. -/
def decodeUtf8 : Buf → Option (List Nat)
  | [] => some []
  | b :: l =>
    if b.val ≤ 0x7F then
      (decodeUtf8 l).map (b.val :: ·)
    else if 0xC2 ≤ b.val ∧ b.val ≤ 0xDF then
      match l with
      | b1 :: l1 =>
        if isCont b1 then
          (decodeUtf8 l1).map (((b.val - 0xC0) * 0x40 + (b1.val - 0x80)) :: ·)
        else none
      | [] => none
    else if b.val = 0xE0 then
      match l with
      | b1 :: b2 :: l2 =>
        if (0xA0 ≤ b1.val ∧ b1.val ≤ 0xBF) ∧ isCont b2 then
          (decodeUtf8 l2).map (((b.val - 0xE0) * 0x1000 + (b1.val - 0x80) * 0x40 + (b2.val - 0x80)) :: ·)
        else none
      | _ => none
    else if 0xE1 ≤ b.val ∧ b.val ≤ 0xEC then
      match l with
      | b1 :: b2 :: l2 =>
        if isCont b1 ∧ isCont b2 then
          (decodeUtf8 l2).map (((b.val - 0xE0) * 0x1000 + (b1.val - 0x80) * 0x40 + (b2.val - 0x80)) :: ·)
        else none
      | _ => none
    else if b.val = 0xED then
      match l with
      | b1 :: b2 :: l2 =>
        if (0x80 ≤ b1.val ∧ b1.val ≤ 0x9F) ∧ isCont b2 then
          (decodeUtf8 l2).map (((b.val - 0xE0) * 0x1000 + (b1.val - 0x80) * 0x40 + (b2.val - 0x80)) :: ·)
        else none
      | _ => none
    else if 0xEE ≤ b.val ∧ b.val ≤ 0xEF then
      match l with
      | b1 :: b2 :: l2 =>
        if isCont b1 ∧ isCont b2 then
          (decodeUtf8 l2).map (((b.val - 0xE0) * 0x1000 + (b1.val - 0x80) * 0x40 + (b2.val - 0x80)) :: ·)
        else none
      | _ => none
    else if b.val = 0xF0 then
      match l with
      | b1 :: b2 :: b3 :: l3 =>
        if (0x90 ≤ b1.val ∧ b1.val ≤ 0xBF) ∧ isCont b2 ∧ isCont b3 then
          (decodeUtf8 l3).map (((b.val - 0xF0) * 0x40000 + (b1.val - 0x80) * 0x1000 + (b2.val - 0x80) * 0x40 + (b3.val - 0x80)) :: ·)
        else none
      | _ => none
    else if 0xF1 ≤ b.val ∧ b.val ≤ 0xF3 then
      match l with
      | b1 :: b2 :: b3 :: l3 =>
        if isCont b1 ∧ isCont b2 ∧ isCont b3 then
          (decodeUtf8 l3).map (((b.val - 0xF0) * 0x40000 + (b1.val - 0x80) * 0x1000 + (b2.val - 0x80) * 0x40 + (b3.val - 0x80)) :: ·)
        else none
      | _ => none
    else if b.val = 0xF4 then
      match l with
      | b1 :: b2 :: b3 :: l3 =>
        if (0x80 ≤ b1.val ∧ b1.val ≤ 0x8F) ∧ isCont b2 ∧ isCont b3 then
          (decodeUtf8 l3).map (((b.val - 0xF0) * 0x40000 + (b1.val - 0x80) * 0x1000 + (b2.val - 0x80) * 0x40 + (b3.val - 0x80)) :: ·)
        else none
      | _ => none
    else none

/-- The unsigned big-endian integer value of a byte string, as computed by
Python `int.from_bytes(l, "big")`: each byte contributes its value weighted by
256 to the number of bytes after it. -/
def ubytesBE : Buf → Nat
  | [] => 0
  | b :: l => b.val * 256 ^ l.length + ubytesBE l

/-- Python `int.from_bytes(l, "big", signed=True)`: two's complement over
`8 * len(l)` bits; the empty byte string reads as 0. -/
def intFromBytesBESigned (l : Buf) : Int :=
  if 2 * ubytesBE l ≥ 256 ^ l.length then (ubytesBE l : Int) - ((256 ^ l.length : Nat) : Int)
  else (ubytesBE l : Int)

/-- Python `int.from_bytes(l, "little", signed=True)`. -/
def intFromBytesLESigned (l : Buf) : Int := intFromBytesBESigned l.reverse

/-- The unsigned little-endian integer value of a byte string. -/
def ubytesLE (l : Buf) : Nat := ubytesBE l.reverse

/-- The five format variants, from the `Signature` enum shared by both source
files. -/
inductive Signature
  | NONE
  | LZMA
  | SC
  | SCLZ
  | SIG
deriving DecidableEq

/-- Python exceptions that the embedded code can raise. -/
inductive PyError
  | valueError
  | unicodeDecodeError
  | lzmaDecodeError
deriving DecidableEq

/-- The four FF bytes inserted on the size-unknown branch (`b"\xFF\xFF\xFF\xFF"`). -/
def ffPad : Buf := [255, 255, 255, 255]

/-- The four zero bytes inserted on the known-size branch (`b"\x00\x00\x00\x00"`). -/
def zeroPad : Buf := [0, 0, 0, 0]

/-- A file write performed as a side effect: target path and bytes written. -/
abbrev FileWrite := String × Buf

instance {e a : Type} [DecidableEq e] [DecidableEq a] : DecidableEq (Except e a) := fun x y =>
  match x, y with
  | .ok u, .ok v =>
    decidable_of_iff (u = v) ⟨fun h => by rw [h], fun h => by injection h⟩
  | .error u, .error v =>
    decidable_of_iff (u = v) ⟨fun h => by rw [h], fun h => by injection h⟩
  | .ok _, .error _ => isFalse fun h => Except.noConfusion h
  | .error _, .ok _ => isFalse fun h => Except.noConfusion h

namespace InitPy

/-- Constructor of `ScCompression` in `__init__.py`: if `fp` is non-empty the
file is read (the filesystem is modelled by `fs`); otherwise a non-empty
`buffer` is used; otherwise `ValueError` is raised.  Note the source never
checks whether both were supplied. -/
def scCompressionInit (fs : String → Buf) (fp : String) (buffer : Buf) : Except PyError Buf :=
  if fp ≠ "" then .ok (fs fp)
  else if buffer ≠ [] then .ok buffer
  else .error .valueError

/-- The `_readSignature` method of `__init__.py`.  The first check compares
`buffer[:3].hex().lower()` with `"5d0000"`; the later checks decode prefixes
with `bytes.decode("utf-8")`, which raises on invalid UTF-8. -/
def readSignature (buf : Buf) : Except PyError Signature :=
  if pyLower (bytesHex (pySlice 0 3 buf)) = strCp "5d0000" then .ok .LZMA
  else
    match decodeUtf8 (pySlice 0 2 buf) with
    | none => .error .unicodeDecodeError
    | some s2 =>
      if pyLower s2 = strCp "sc" then
        if buf.length > 30 then
          match decodeUtf8 (pySlice 26 30 buf) with
          | none => .error .unicodeDecodeError
          | some s4 => if pyLower s4 = strCp "sclz" then .ok .SCLZ else .ok .SC
        else .ok .SC
      else
        match decodeUtf8 (pySlice 0 4 buf) with
        | none => .error .unicodeDecodeError
        | some s4 => if pyLower s4 = strCp "sig:" then .ok .SIG else .ok .NONE

/-- The size read in `_decompressLZMA` of `__init__.py`:
`int.from_bytes(self._buffer[5+offset:9+offset], "big", signed=True)`. -/
def sizeRead (buf : Buf) (off : Nat) : Int :=
  intFromBytesBESigned (pySlice (5 + off) (9 + off) buf)

/-- The `self._formattedbuffer` built by `_decompressLZMA` of `__init__.py`:
`buffer[offset:9+offset]` then four FF bytes (if the size read is -1) or four
zero bytes, then `buffer[9+offset:]`. -/
def formatted (buf : Buf) (off : Nat) : Buf :=
  if sizeRead buf off = -1 then
    pySlice off (9 + off) buf ++ ffPad ++ buf.drop (9 + off)
  else
    pySlice off (9 + off) buf ++ zeroPad ++ buf.drop (9 + off)

/-- The `_decompressLZMA` method of `__init__.py`: builds the formatted buffer,
writes it to the fixed path `"newinsertpy.csv"`, and hands it to the external
LZMA decoder `D`.  The second component is the trace of file writes. -/
def decompressLZMA (buf : Buf) (off : Nat) (D : Buf → Except PyError Buf) :
    Except PyError Buf × List FileWrite :=
  (D (formatted buf off), [("newinsertpy.csv", formatted buf off)])

/-- The `decompress` method of `__init__.py`: dispatch on the signature.
`_decompressSC` calls `_decompressLZMA(26)`, `_decompressSIG` calls
`_decompressLZMA(68)`, `_decompressSCLZ` returns the buffer unchanged. -/
def decompress (buf : Buf) (D : Buf → Except PyError Buf) :
    Except PyError Buf × List FileWrite :=
  match readSignature buf with
  | .error e => (.error e, [])
  | .ok .NONE => (.ok buf, [])
  | .ok .LZMA => decompressLZMA buf 0 D
  | .ok .SC => decompressLZMA buf 26 D
  | .ok .SCLZ => (.ok buf, [])
  | .ok .SIG => decompressLZMA buf 68 D

end InitPy

namespace ClassPy

/-- Python `repr` of a single byte inside a bytes literal quoted with `q`:
backslash and the quote character are escaped, tab, newline and carriage
return use their short escapes, other printable ASCII is kept, and everything
else becomes a lowercase `\xhh` escape. -/
def reprByte (q : Nat) (b : Byte) : List Nat :=
  if b.val = 0x5C then [0x5C, 0x5C]
  else if b.val = q then [0x5C, q]
  else if b.val = 9 then [0x5C, 0x74]
  else if b.val = 10 then [0x5C, 0x6E]
  else if b.val = 13 then [0x5C, 0x72]
  else if 0x20 ≤ b.val ∧ b.val ≤ 0x7E then [b.val]
  else [0x5C, 0x78, hexDigitCp (b.val / 16), hexDigitCp (b.val % 16)]

/-- Python `str(bytes)`, which is `repr(bytes)`: the letter `b`, a quote
(single, unless the bytes contain a single quote and no double quote), the
escaped bytes, and the closing quote.  `ScCompression.py` compares this repr
string, not the decoded text, against its signature constants. -/
def pyBytesRepr (l : Buf) : List Nat :=
  let q : Nat := if (l.contains 0x27) ∧ ¬(l.contains 0x22) then 0x22 else 0x27
  0x62 :: q :: (l.flatMap (reprByte q) ++ [q])

/-- The `_readSignature` method of `ScCompression.py`: the LZMA check matches
`__init__.py`, but the `SC`, `SCLZ` and `SIG` checks compare `str(bytes)`
(the repr, e.g. `b'SC'`) against the constants, and the `SIG` check does not
even lowercase. -/
def readSignature (buf : Buf) : Signature :=
  if pyLower (bytesHex (pySlice 0 3 buf)) = strCp "5d0000" then .LZMA
  else if pyLower (pyBytesRepr (pySlice 0 2 buf)) = strCp "sc" then
    if buf.length > 30 ∧ pyLower (pyBytesRepr (pySlice 26 30 buf)) = strCp "sclz" then .SCLZ
    else .SC
  else if pyBytesRepr (pySlice 0 4 buf) = strCp "sig:" then .SIG
  else .NONE

/-- The size read in `_decompressLZMA` of `ScCompression.py`:
`int.from_bytes(self._buffer[5:9], "little", signed=True)` — little-endian,
and always at offset 0 regardless of which dispatch path was taken. -/
def sizeRead (buf : Buf) : Int := intFromBytesLESigned (pySlice 5 9 buf)

/-- The `self._formattedbuffer` built by `_decompressLZMA` of
`ScCompression.py`, always from `self._buffer` at offset 0.  The assignments
`self._formattedbuffer = self._buffer[26:]` in `_decompressSC` and
`self._formattedbuffer = self._buffer[68:]` in `_decompressSIG` are dead
stores: `_decompressLZMA` overwrites `_formattedbuffer` from `self._buffer`
before reading it, so no header is ever stripped. -/
def formatted (buf : Buf) : Buf :=
  if sizeRead buf = -1 then pySlice 0 9 buf ++ ffPad ++ buf.drop 9
  else pySlice 0 9 buf ++ zeroPad ++ buf.drop 9

/-- The `Decompress` method of `ScCompression.py` (no file writes occur). -/
def decompress (buf : Buf) (D : Buf → Except PyError Buf) : Except PyError Buf :=
  match readSignature buf with
  | .NONE => .ok buf
  | .LZMA => D (formatted buf)
  | .SC => D (formatted buf)
  | .SCLZ => .ok buf
  | .SIG => D (formatted buf)

end ClassPy

/-! ### Arithmetic facts about the signed byte reads -/

theorem ubytesBE_lt (l : Buf) : ubytesBE l < 256 ^ l.length := by
  induction l with
  | nil => simp [ubytesBE]
  | cons b t ih =>
    have hb : b.val ≤ 255 := Nat.lt_succ_iff.mp b.isLt
    have h1 : b.val * 256 ^ t.length ≤ 255 * 256 ^ t.length := Nat.mul_le_mul_right _ hb
    simp only [ubytesBE, List.length_cons, pow_succ]
    linarith

theorem ubytesBE_eq_max_iff (l : Buf) :
    ubytesBE l = 256 ^ l.length - 1 ↔ ∀ b ∈ l, b.val = 255 := by
  induction l with
  | nil => simp [ubytesBE]
  | cons b t ih =>
    have hu := ubytesBE_lt t
    have hb : b.val ≤ 255 := Nat.lt_succ_iff.mp b.isLt
    have hp : 1 ≤ 256 ^ t.length := Nat.one_le_pow _ _ (by norm_num)
    simp only [ubytesBE, List.length_cons, pow_succ, List.forall_mem_cons]
    constructor
    · intro h
      have hbv : b.val = 255 := by
        by_contra hne
        have hb2 : b.val ≤ 254 := by omega
        have h2 : b.val * 256 ^ t.length ≤ 254 * 256 ^ t.length := Nat.mul_le_mul_right _ hb2
        generalize hX : b.val * 256 ^ t.length = X at h h2
        omega
      have hut : ubytesBE t = 256 ^ t.length - 1 := by rw [hbv] at h; omega
      exact ⟨hbv, ih.mp hut⟩
    · rintro ⟨hbv, ht⟩
      have hut : ubytesBE t = 256 ^ t.length - 1 := ih.mpr ht
      rw [hbv, hut]
      omega

theorem intFromBytesBESigned_eq_neg_one_iff (l : Buf) :
    intFromBytesBESigned l = -1 ↔ l ≠ [] ∧ ∀ b ∈ l, b.val = 255 := by
  rcases l with _ | ⟨b, t⟩
  · decide
  · have hu := ubytesBE_lt (b :: t)
    have hge : (256 : Nat) ≤ 256 ^ (b :: t).length := by
      calc (256 : Nat) = 256 ^ 1 := (pow_one 256).symm
      _ ≤ 256 ^ (b :: t).length := Nat.pow_le_pow_right (by norm_num) (by simp)
    rw [show (∀ c ∈ b :: t, c.val = 255) ↔ ubytesBE (b :: t) = 256 ^ (b :: t).length - 1 from
      (ubytesBE_eq_max_iff (b :: t)).symm]
    unfold intFromBytesBESigned
    constructor
    · intro h
      refine ⟨by simp, ?_⟩
      by_cases hc : 2 * ubytesBE (b :: t) ≥ 256 ^ (b :: t).length
      · rw [if_pos hc] at h; omega
      · rw [if_neg hc] at h; omega
    · rintro ⟨-, h⟩
      have h2 : 2 * ubytesBE (b :: t) ≥ 256 ^ (b :: t).length := by omega
      rw [if_pos h2]; omega

theorem intFromBytesLESigned_eq_neg_one_iff (l : Buf) :
    intFromBytesLESigned l = -1 ↔ l ≠ [] ∧ ∀ b ∈ l, b.val = 255 := by
  unfold intFromBytesLESigned
  rw [intFromBytesBESigned_eq_neg_one_iff]
  simp [List.mem_reverse]

/-- The signed read of a byte string equals -1 under big-endian byte order
exactly when it does under little-endian byte order: both mean the bytes are
non-empty and all 0xFF. -/
theorem signedBE_neg_one_iff_LE (l : Buf) :
    intFromBytesBESigned l = -1 ↔ intFromBytesLESigned l = -1 := by
  rw [intFromBytesBESigned_eq_neg_one_iff, intFromBytesLESigned_eq_neg_one_iff]

theorem length_four_eq (raw : Buf) (h : raw.length = 4) : ∃ a b c d, raw = [a, b, c, d] := by
  rcases raw with _ | ⟨a, raw⟩
  · simp at h
  rcases raw with _ | ⟨b, raw⟩
  · simp at h
  rcases raw with _ | ⟨c, raw⟩
  · simp at h
  rcases raw with _ | ⟨d, raw⟩
  · simp at h
  rcases raw with _ | ⟨e, raw⟩
  · exact ⟨a, b, c, d, rfl⟩
  · simp at h

theorem eq_ffPad_iff (raw : Buf) (h : raw.length = 4) :
    raw = ffPad ↔ ∀ b ∈ raw, b.val = 255 := by
  constructor
  · rintro rfl; decide
  · intro hall
    obtain ⟨a, b, c, d, rfl⟩ := length_four_eq raw h
    have h255 : ((255 : Byte)).val = 255 := rfl
    have ha := hall a (by simp)
    have hb := hall b (by simp)
    have hc := hall c (by simp)
    have hd := hall d (by simp)
    simp only [ffPad, List.cons.injEq, and_true]
    exact ⟨Fin.ext (ha.trans h255.symm), Fin.ext (hb.trans h255.symm),
      Fin.ext (hc.trans h255.symm), Fin.ext (hd.trans h255.symm)⟩

theorem intBE_four_neg_one_iff (raw : Buf) (h : raw.length = 4) :
    intFromBytesBESigned raw = -1 ↔ raw = ffPad := by
  rw [intFromBytesBESigned_eq_neg_one_iff, eq_ffPad_iff raw h]
  have : raw ≠ [] := by rintro rfl; simp at h
  tauto

theorem intLE_four_neg_one_iff (raw : Buf) (h : raw.length = 4) :
    intFromBytesLESigned raw = -1 ↔ raw = ffPad := by
  rw [intFromBytesLESigned_eq_neg_one_iff, eq_ffPad_iff raw h]
  have : raw ≠ [] := by rintro rfl; simp at h
  tauto

/-! ### Slicing facts -/

theorem pySlice_drop (a b k : Nat) (l : Buf) :
    pySlice a b (l.drop k) = pySlice (k + a) (k + b) l := by
  unfold pySlice
  rw [List.drop_drop]
  congr 1
  omega

theorem length_pySlice_of_le (a b : Nat) (l : Buf) (hab : a ≤ b) (h : b ≤ l.length) :
    (pySlice a b l).length = b - a := by
  simp only [pySlice, List.length_take, List.length_drop]
  omega

/-- Shifting the whole read by `k` bytes: the adapt step of `__init__.py` at
offset `k` builds the same stream as the adapt step at offset 0 applied to the
buffer with its first `k` bytes stripped. -/
theorem initFormatted_drop (buf : Buf) (k : Nat) :
    InitPy.formatted buf k = InitPy.formatted (buf.drop k) 0 := by
  have h1 : pySlice (5 + 0) (9 + 0) (buf.drop k) = pySlice (5 + k) (9 + k) buf := by
    rw [pySlice_drop]
    congr 1
    all_goals omega
  have h2 : pySlice 0 (9 + 0) (buf.drop k) = pySlice k (9 + k) buf := by
    rw [pySlice_drop]
    congr 1
    all_goals omega
  have h3 : (buf.drop k).drop (9 + 0) = buf.drop (9 + k) := by
    rw [List.drop_drop]
    congr 1
    omega
  unfold InitPy.formatted InitPy.sizeRead
  rw [h1, h2, h3]

/-- The two adapt steps build the same stream at offset 0: the big-endian
versus little-endian disagreement on the size read cannot change the branch
taken, because a signed byte read is -1 under one order exactly when it is
under the other. -/
theorem formatted_zero_eq (buf : Buf) : InitPy.formatted buf 0 = ClassPy.formatted buf := by
  unfold InitPy.formatted ClassPy.formatted InitPy.sizeRead ClassPy.sizeRead
  simp only [Nat.add_zero]
  by_cases hc : intFromBytesLESigned (pySlice 5 9 buf) = -1
  · rw [if_pos hc, if_pos ((signedBE_neg_one_iff_LE _).mpr hc)]
  · rw [if_neg hc, if_neg (fun hh => hc ((signedBE_neg_one_iff_LE _).mp hh))]

/-- Appending the four zero pad bytes does not change the little-endian value
of a byte string: the pad lands in the most significant positions. -/
theorem ubytesLE_append_zeroPad (l : Buf) : ubytesLE (l ++ zeroPad) = ubytesLE l := by
  unfold ubytesLE
  rw [List.reverse_append, show zeroPad.reverse = zeroPad from by decide]
  show ubytesBE ((0 : Byte) :: (0 : Byte) :: (0 : Byte) :: (0 : Byte) :: l.reverse) =
    ubytesBE l.reverse
  simp [ubytesBE, show ((0 : Byte)).val = 0 from rfl]

/-- Extracting bytes 5..13 of a stream built as a 9-byte head, a 4-byte pad
and a tail: the result is the last 4 bytes of the head followed by the pad. -/
theorem pySlice_5_13_append (nine pad rest : Buf) (h9 : nine.length = 9) (h4 : pad.length = 4) :
    pySlice 5 13 ((nine ++ pad) ++ rest) = nine.drop 5 ++ pad := by
  unfold pySlice
  rw [List.append_assoc]
  rw [List.drop_append_of_le_length (by omega)]
  rw [← List.append_assoc]
  have hl : (nine.drop 5 ++ pad).length = 13 - 5 := by
    rw [List.length_append, List.length_drop, h9, h4]
  rw [List.take_left' hl]

/-! ### Dispatch facts for `decompress` of `__init__.py` -/

theorem initDecompress_none {buf : Buf} {D : Buf → Except PyError Buf}
    (h : InitPy.readSignature buf = .ok .NONE) :
    InitPy.decompress buf D = (.ok buf, []) := by
  unfold InitPy.decompress
  rw [h]

theorem initDecompress_lzma {buf : Buf} {D : Buf → Except PyError Buf}
    (h : InitPy.readSignature buf = .ok .LZMA) :
    InitPy.decompress buf D = InitPy.decompressLZMA buf 0 D := by
  unfold InitPy.decompress
  rw [h]

theorem initDecompress_sc {buf : Buf} {D : Buf → Except PyError Buf}
    (h : InitPy.readSignature buf = .ok .SC) :
    InitPy.decompress buf D = InitPy.decompressLZMA buf 26 D := by
  unfold InitPy.decompress
  rw [h]

theorem initDecompress_sig {buf : Buf} {D : Buf → Except PyError Buf}
    (h : InitPy.readSignature buf = .ok .SIG) :
    InitPy.decompress buf D = InitPy.decompressLZMA buf 68 D := by
  unfold InitPy.decompress
  rw [h]

/-! ### Claim C1 -/

/-- Canonical stream exactly as the specification words describe it:
`buffer[offset .. offset+9]`, then an 8-byte sentinel — `FF`×8 when the read
size equals -1, else `00 00 00 00` followed by the original 4 raw size bytes —
then `buffer[offset+9 ..]`.  This definition follows the specification text
and is compared against `InitPy.formatted`, which follows the source. -/
def specCanonicalStream (buf : Buf) (off : Nat) : Buf :=
  pySlice off (off + 9) buf ++
    (if InitPy.sizeRead buf off = -1 then ffPad ++ ffPad
     else zeroPad ++ pySlice (off + 5) (off + 9) buf) ++
    buf.drop (off + 9)

/-- C1, counterexample: on a well-formed 10-byte LZMA container the stream the
code builds is not the stream the claim describes — the code inserts only 4
pad bytes after the 9-byte head (13 header bytes in total), while the claim
appends a full 8-byte sentinel after the 9-byte head (17 header bytes). -/
theorem canonical_stream_literal_refuted :
    InitPy.formatted [0x5D, 0, 0, 0, 0, 0, 0, 0, 5, 7] 0 ≠
      specCanonicalStream [0x5D, 0, 0, 0, 0, 0, 0, 0, 5, 7] 0 := by decide

/-- C1, amended: for each dispatch path (`Lzma` at offset 0, `Sc` at offset 26,
`Sig` at offset 68) the stream handed to the external LZMA decoder is
`buffer[offset .. offset+9]`, then a 4-byte pad — `FF FF FF FF` when the size
read equals -1, else `00 00 00 00` — then `buffer[offset+9 ..]`; the original
4 raw size bytes stay in place inside the 9-byte head, so the resulting
8-byte size field is the raw bytes followed by the pad. -/
theorem adapt_canonical_stream (buf : Buf) (D : Buf → Except PyError Buf) :
    (InitPy.readSignature buf = .ok .LZMA →
      (InitPy.decompress buf D).1 =
        D (pySlice 0 9 buf ++ (if InitPy.sizeRead buf 0 = -1 then ffPad else zeroPad) ++
          buf.drop 9))
    ∧ (InitPy.readSignature buf = .ok .SC →
      (InitPy.decompress buf D).1 =
        D (pySlice 26 35 buf ++ (if InitPy.sizeRead buf 26 = -1 then ffPad else zeroPad) ++
          buf.drop 35))
    ∧ (InitPy.readSignature buf = .ok .SIG →
      (InitPy.decompress buf D).1 =
        D (pySlice 68 77 buf ++ (if InitPy.sizeRead buf 68 = -1 then ffPad else zeroPad) ++
          buf.drop 77)) := by
  refine ⟨fun h => ?_, fun h => ?_, fun h => ?_⟩
  · rw [initDecompress_lzma h]
    show D (InitPy.formatted buf 0) = _
    unfold InitPy.formatted
    by_cases hc : InitPy.sizeRead buf 0 = -1
    · rw [if_pos hc, if_pos hc]
    · rw [if_neg hc, if_neg hc]
  · rw [initDecompress_sc h]
    show D (InitPy.formatted buf 26) = _
    unfold InitPy.formatted
    by_cases hc : InitPy.sizeRead buf 26 = -1
    · rw [if_pos hc, if_pos hc]
    · rw [if_neg hc, if_neg hc]
  · rw [initDecompress_sig h]
    show D (InitPy.formatted buf 68) = _
    unfold InitPy.formatted
    by_cases hc : InitPy.sizeRead buf 68 = -1
    · rw [if_pos hc, if_pos hc]
    · rw [if_neg hc, if_neg hc]

/-- Witness for the amended C1 theorem at concrete `Lzma`, `Sc` and `Sig`
containers with the identity decoder. -/
theorem adapt_canonical_stream_witness :
    ((InitPy.decompress [0x5D, 0, 0, 0, 0, 0, 0, 0, 5, 7] Except.ok).1 =
      Except.ok (pySlice 0 9 [0x5D, 0, 0, 0, 0, 0, 0, 0, 5, 7] ++
        (if InitPy.sizeRead [0x5D, 0, 0, 0, 0, 0, 0, 0, 5, 7] 0 = -1 then ffPad else zeroPad) ++
        List.drop 9 [0x5D, 0, 0, 0, 0, 0, 0, 0, 5, 7]))
    ∧ ((InitPy.decompress [0x53, 0x43] Except.ok).1 =
      Except.ok (pySlice 26 35 [0x53, 0x43] ++
        (if InitPy.sizeRead [0x53, 0x43] 26 = -1 then ffPad else zeroPad) ++
        List.drop 35 [0x53, 0x43]))
    ∧ ((InitPy.decompress [0x53, 0x69, 0x67, 0x3A] Except.ok).1 =
      Except.ok (pySlice 68 77 [0x53, 0x69, 0x67, 0x3A] ++
        (if InitPy.sizeRead [0x53, 0x69, 0x67, 0x3A] 68 = -1 then ffPad else zeroPad) ++
        List.drop 77 [0x53, 0x69, 0x67, 0x3A])) :=
  ⟨(adapt_canonical_stream _ _).1 (by decide),
   (adapt_canonical_stream _ _).2.1 (by decide),
   (adapt_canonical_stream _ _).2.2 (by decide)⟩

/-! ### Claim C2 -/

/-- C2 (confirmed): whenever the 4-byte size field is fully present
(`offset + 9 ≤ len(buffer)`), bytes 5..13 of the adapted stream — the 8-byte
size field of the canonical LZMA layout — equal `FF`×8 when the 4 stored bytes
are all `0xFF`, and otherwise equal the 4 stored bytes followed by 4 zero
bytes, so read little-endian the low 4 bytes are the stored bytes and the
high 4 bytes are zero (the little-endian value is unchanged by the pad); and
the signed read of the 4 stored bytes equals -1 exactly when they are all
`0xFF`, under big-endian and little-endian byte order alike. -/
theorem size_field_repack (buf : Buf) (off : Nat) (h : off + 9 ≤ buf.length) :
    (pySlice 5 13 (InitPy.formatted buf off) =
      if pySlice (5 + off) (9 + off) buf = ffPad then ffPad ++ ffPad
      else pySlice (5 + off) (9 + off) buf ++ zeroPad)
    ∧ ubytesLE (pySlice (5 + off) (9 + off) buf ++ zeroPad) =
        ubytesLE (pySlice (5 + off) (9 + off) buf)
    ∧ (intFromBytesBESigned (pySlice (5 + off) (9 + off) buf) = -1 ↔
        pySlice (5 + off) (9 + off) buf = ffPad)
    ∧ (intFromBytesLESigned (pySlice (5 + off) (9 + off) buf) = -1 ↔
        pySlice (5 + off) (9 + off) buf = ffPad) := by
  have hlen : (pySlice (5 + off) (9 + off) buf).length = 4 := by
    have := length_pySlice_of_le (5 + off) (9 + off) buf (by omega) (by omega)
    omega
  have hBE := intBE_four_neg_one_iff _ hlen
  have hLE := intLE_four_neg_one_iff _ hlen
  have hnine : (pySlice off (9 + off) buf).length = 9 := by
    have := length_pySlice_of_le off (9 + off) buf (by omega) (by omega)
    omega
  have hdrop5 : (pySlice off (9 + off) buf).drop 5 = pySlice (5 + off) (9 + off) buf := by
    unfold pySlice
    rw [List.drop_take, List.drop_drop]
    congr 1
    · omega
    · congr 1
      omega
  refine ⟨?_, ubytesLE_append_zeroPad _, hBE, hLE⟩
  unfold InitPy.formatted InitPy.sizeRead
  by_cases hc : intFromBytesBESigned (pySlice (5 + off) (9 + off) buf) = -1
  · rw [if_pos hc, if_pos (hBE.mp hc)]
    rw [pySlice_5_13_append _ _ _ hnine (by decide), hdrop5, hBE.mp hc]
  · rw [if_neg hc, if_neg (fun he => hc (hBE.mpr he))]
    rw [pySlice_5_13_append _ _ _ hnine (by decide), hdrop5]

/-- Witness for C2 at a concrete 9-byte LZMA container with size bytes
`01 02 03 04` at offset 0. -/
theorem size_field_repack_witness :
    (0 + 9 ≤ ([0x5D, 0, 0, 0, 0, 1, 2, 3, 4] : Buf).length)
    ∧ ((pySlice 5 13 (InitPy.formatted [0x5D, 0, 0, 0, 0, 1, 2, 3, 4] 0) =
        if pySlice (5 + 0) (9 + 0) [0x5D, 0, 0, 0, 0, 1, 2, 3, 4] = ffPad then ffPad ++ ffPad
        else pySlice (5 + 0) (9 + 0) [0x5D, 0, 0, 0, 0, 1, 2, 3, 4] ++ zeroPad)
      ∧ ubytesLE (pySlice (5 + 0) (9 + 0) [0x5D, 0, 0, 0, 0, 1, 2, 3, 4] ++ zeroPad) =
          ubytesLE (pySlice (5 + 0) (9 + 0) [0x5D, 0, 0, 0, 0, 1, 2, 3, 4])
      ∧ (intFromBytesBESigned (pySlice (5 + 0) (9 + 0) [0x5D, 0, 0, 0, 0, 1, 2, 3, 4]) = -1 ↔
          pySlice (5 + 0) (9 + 0) [0x5D, 0, 0, 0, 0, 1, 2, 3, 4] = ffPad)
      ∧ (intFromBytesLESigned (pySlice (5 + 0) (9 + 0) [0x5D, 0, 0, 0, 0, 1, 2, 3, 4]) = -1 ↔
          pySlice (5 + 0) (9 + 0) [0x5D, 0, 0, 0, 0, 1, 2, 3, 4] = ffPad)) :=
  ⟨by decide, size_field_repack [0x5D, 0, 0, 0, 0, 1, 2, 3, 4] 0 (by decide)⟩

/-! ### Claim C3 -/

/-- C3 (confirmed for `__init__.py`): the offset-26 (`Sc`) adapt step on a
buffer builds exactly the stream that the offset-0 (`Lzma`) adapt step builds
on `buffer[26:]`, and likewise offset 68 (`Sig`) versus `buffer[68:]`; hence
`decompress` on an `Sc`-classified wrapped buffer returns what the external
decoder returns on the adapted unwrapped payload, and likewise for `Sig`, so
the wrapped result is byte-identical to direct LZMA-decoding of the unwrapped
payload. -/
theorem wrapped_equals_unwrapped (buf : Buf) (D : Buf → Except PyError Buf) :
    (InitPy.formatted buf 26 = InitPy.formatted (buf.drop 26) 0)
    ∧ (InitPy.formatted buf 68 = InitPy.formatted (buf.drop 68) 0)
    ∧ (InitPy.readSignature buf = .ok .SC →
        (InitPy.decompress buf D).1 = D (InitPy.formatted (buf.drop 26) 0))
    ∧ (InitPy.readSignature buf = .ok .SIG →
        (InitPy.decompress buf D).1 = D (InitPy.formatted (buf.drop 68) 0)) := by
  refine ⟨initFormatted_drop buf 26, initFormatted_drop buf 68, fun h => ?_, fun h => ?_⟩
  · rw [initDecompress_sc h]
    show D (InitPy.formatted buf 26) = _
    rw [initFormatted_drop]
  · rw [initDecompress_sig h]
    show D (InitPy.formatted buf 68) = _
    rw [initFormatted_drop]

/-- Witness for C3 at a concrete `Sc` container and a concrete `Sig`
container with the identity decoder. -/
theorem wrapped_equals_unwrapped_witness :
    ((InitPy.decompress ([0x53, 0x43] ++ List.replicate 24 0 ++
        [0x5D, 0, 0, 0, 0, 1, 2, 3, 4, 9]) Except.ok).1 =
      Except.ok (InitPy.formatted (List.drop 26 ([0x53, 0x43] ++ List.replicate 24 0 ++
        [0x5D, 0, 0, 0, 0, 1, 2, 3, 4, 9])) 0))
    ∧ ((InitPy.decompress ([0x53, 0x69, 0x67, 0x3A] ++ List.replicate 64 0 ++
        [0x5D, 0, 0, 0, 0, 1, 2, 3, 4, 9]) Except.ok).1 =
      Except.ok (InitPy.formatted (List.drop 68 ([0x53, 0x69, 0x67, 0x3A] ++
        List.replicate 64 0 ++ [0x5D, 0, 0, 0, 0, 1, 2, 3, 4, 9])) 0)) :=
  ⟨(wrapped_equals_unwrapped _ _).2.2.1 (by decide),
   (wrapped_equals_unwrapped _ _).2.2.2 (by decide)⟩

/-! ### Claim C4 -/

/-- C4 (code bug): classification is not total.  On the one-byte buffer
`b"\x80"` — not an LZMA magic, and not valid UTF-8 — `_readSignature` of
`__init__.py` evaluates `buffer[:2].decode("utf-8")` and raises
`UnicodeDecodeError` instead of returning a `Signature`. -/
theorem classify_invalid_utf8_raises :
    InitPy.readSignature [0x80] = .error .unicodeDecodeError := by decide

/-! ### Claim C5 -/

/-- C5 (code bug): on the 31-byte buffer `b"SC" + b"\x00"*24 + b"\xFF"*4 +
b"\x00"`, whose first two bytes equal `SC` and whose length exceeds 30,
`_readSignature` of `__init__.py` raises `UnicodeDecodeError` while decoding
bytes 26..30 instead of classifying it `Sc`; and `_readSignature` of
`ScCompression.py` classifies the buffer `b"sc"` as `NONE`, since it compares
the Python repr `b'sc'` — never the decoded text — against `"sc"`. -/
theorem sc_classify_divergence :
    InitPy.readSignature ([0x53, 0x43] ++ List.replicate 24 0 ++ [255, 255, 255, 255] ++ [0]) =
      .error .unicodeDecodeError
    ∧ ClassPy.readSignature [0x73, 0x63] = .NONE :=
  ⟨by decide, by decide⟩

/-! ### Claim C6 -/

/-- C6, counterexample: constructing with both a file path and a buffer does
not fail — the path silently wins and the buffer is ignored. -/
theorem both_inputs_accepted :
    InitPy.scCompressionInit (fun _ => [86]) "x" [1] = .ok [86] := by decide

/-- C6, amended: construction fails with `ValueError` exactly when the file
path and the buffer are both empty; whenever a non-empty path is supplied the
path wins and the buffer — empty or not — is ignored. -/
theorem init_error_iff_neither (fs : String → Buf) (fp : String) (buffer : Buf) :
    (InitPy.scCompressionInit fs fp buffer = .error .valueError ↔ (fp = "" ∧ buffer = []))
    ∧ (fp ≠ "" → InitPy.scCompressionInit fs fp buffer = .ok (fs fp)) := by
  by_cases h1 : fp = "" <;> by_cases h2 : buffer = ([] : Buf) <;>
    simp [InitPy.scCompressionInit, h1, h2]

/-- Witness for the amended C6 theorem with a non-empty path and an empty
buffer. -/
theorem init_error_iff_neither_witness :
    ((InitPy.scCompressionInit (fun _ => [2]) "a" [] = .error .valueError ↔
      (("a" : String) = "" ∧ ([] : Buf) = []))
    ∧ InitPy.scCompressionInit (fun _ => [2]) "a" [] = .ok [2]) :=
  ⟨(init_error_iff_neither (fun _ => [2]) "a" []).1,
   (init_error_iff_neither (fun _ => [2]) "a" []).2 (by decide)⟩

/-! ### Claim C7 -/

/-- C7, counterexample: no container can be constructed from the empty buffer:
with an empty path and the empty buffer the constructor raises `ValueError`,
so the claimed example — construct from `b""`, then `decompress()` returns
`b""` — is impossible. -/
theorem empty_buffer_ctor_fails :
    InitPy.scCompressionInit (fun _ => []) "" [] = .error .valueError := by decide

/-- C7, amended: every buffer whose signature classifies as `NONE` passes
through `decompress` unchanged with no file writes, and the empty buffer does
classify as `NONE` when handed directly to the classifier — but the public
constructor rejects the empty buffer, so such an instance cannot be built. -/
theorem none_passthrough (buf : Buf) (D : Buf → Except PyError Buf)
    (h : InitPy.readSignature buf = .ok .NONE) :
    InitPy.decompress buf D = (.ok buf, []) ∧ InitPy.readSignature ([] : Buf) = .ok .NONE :=
  ⟨initDecompress_none h, by decide⟩

/-- Witness for the amended C7 theorem at the empty buffer itself. -/
theorem none_passthrough_witness :
    InitPy.decompress ([] : Buf) Except.ok = (.ok [], []) ∧
      InitPy.readSignature ([] : Buf) = .ok .NONE :=
  none_passthrough [] Except.ok (by decide)

/-! ### Claim C8 -/

/-- C8 (code bug): decompression is not a pure transform.  On the
`Lzma`-classified buffer `b"\x5d\x00\x00"`, `_decompressLZMA` of `__init__.py`
writes the intermediate formatted stream to the fixed file path
`newinsertpy.csv` before handing it to the decoder, even though the caller
never asked for any file output. -/
theorem decompress_writes_debug_file :
    (InitPy.decompress [0x5D, 0, 0] (fun _ => .error .lzmaDecodeError)).2 =
      [("newinsertpy.csv", InitPy.formatted [0x5D, 0, 0] 0)] := by decide

/-! ### Claim C9 -/

/-- C9, counterexample: the two implementations are not behaviourally
identical — on the buffer `b"SC"` the `__init__.py` classifier returns `Sc`
while the `ScCompression.py` classifier returns `NONE`. -/
theorem impls_disagree_on_sc :
    InitPy.readSignature [0x53, 0x43] = .ok .SC
    ∧ ClassPy.readSignature [0x53, 0x43] = .NONE :=
  ⟨by decide, by decide⟩

/-- C9, amended: the two implementations agree exactly on the LZMA path: for
every buffer whose first 3 bytes are `5D 00 00` both classify it `Lzma`,
build the identical adapted stream (the big-endian versus little-endian size
read cannot change the branch taken), and return the same decoder result;
they diverge elsewhere — `ScCompression.py` never classifies `Sc`/`Sclz`/
`Sig` because it compares repr strings, `__init__.py` raises on invalid UTF-8
prefixes and writes a debug file, and the `ScCompression.py` `Sc`/`Sig` paths
never strip their headers. -/
theorem impls_agree_on_lzma (buf : Buf) (D : Buf → Except PyError Buf)
    (h : pySlice 0 3 buf = [0x5D, 0, 0]) :
    InitPy.readSignature buf = .ok .LZMA
    ∧ ClassPy.readSignature buf = .LZMA
    ∧ InitPy.formatted buf 0 = ClassPy.formatted buf
    ∧ (InitPy.decompress buf D).1 = ClassPy.decompress buf D := by
  have hhex : pyLower (bytesHex (pySlice 0 3 buf)) = strCp "5d0000" := by
    rw [h]; decide
  have hA : InitPy.readSignature buf = .ok .LZMA := by
    unfold InitPy.readSignature
    rw [if_pos hhex]
  have hB : ClassPy.readSignature buf = .LZMA := by
    unfold ClassPy.readSignature
    rw [if_pos hhex]
  refine ⟨hA, hB, formatted_zero_eq buf, ?_⟩
  rw [initDecompress_lzma hA]
  unfold ClassPy.decompress
  rw [hB]
  show D (InitPy.formatted buf 0) = D (ClassPy.formatted buf)
  rw [formatted_zero_eq]

/-- Witness for the amended C9 theorem at a concrete LZMA buffer with the
identity decoder. -/
theorem impls_agree_on_lzma_witness :
    InitPy.readSignature [0x5D, 0, 0, 0, 0, 1, 2, 3, 4, 9] = .ok .LZMA
    ∧ ClassPy.readSignature [0x5D, 0, 0, 0, 0, 1, 2, 3, 4, 9] = .LZMA
    ∧ InitPy.formatted [0x5D, 0, 0, 0, 0, 1, 2, 3, 4, 9] 0 =
        ClassPy.formatted [0x5D, 0, 0, 0, 0, 1, 2, 3, 4, 9]
    ∧ (InitPy.decompress [0x5D, 0, 0, 0, 0, 1, 2, 3, 4, 9] Except.ok).1 =
        ClassPy.decompress [0x5D, 0, 0, 0, 0, 1, 2, 3, 4, 9] Except.ok :=
  impls_agree_on_lzma [0x5D, 0, 0, 0, 0, 1, 2, 3, 4, 9] Except.ok (by decide)

/-! ### Claim C10 -/

/-- C10, counterexample: on the 6-byte `Lzma`-classified buffer
`b"\x5d\x00\x00\x00\x00\xff"` the partially missing size field — the single
available byte `0xFF` — is read as the signed integer -1, not 0, so the
adapt step takes the -1 branch and pads with `FF FF FF FF`. -/
theorem partial_size_field_reads_minus_one :
    InitPy.readSignature [0x5D, 0, 0, 0, 0, 255] = .ok .LZMA
    ∧ InitPy.sizeRead [0x5D, 0, 0, 0, 0, 255] 0 = -1
    ∧ InitPy.formatted [0x5D, 0, 0, 0, 0, 255] 0 =
        [0x5D, 0, 0, 0, 0, 255, 255, 255, 255, 255] :=
  ⟨by decide, by decide, by decide⟩

/-- C10, amended: on every `Lzma`-classified buffer, however short, the adapt
step itself never fails — `decompress` returns exactly what the external
decoder returns on the adapted stream, so only the decoder can reject it; a
wholly missing size field (buffer length at most 5) is read as the signed
integer 0 and takes the non-(-1) branch, while a partially present field is
read as the signed value of the available bytes (all-`0xFF` partial bytes
read as -1). -/
theorem lzma_adapt_total (buf : Buf) (D : Buf → Except PyError Buf)
    (h : InitPy.readSignature buf = .ok .LZMA) :
    (InitPy.decompress buf D).1 = D (InitPy.formatted buf 0)
    ∧ (buf.length ≤ 5 → InitPy.sizeRead buf 0 = 0) := by
  constructor
  · rw [initDecompress_lzma h]
    rfl
  · intro hlen
    unfold InitPy.sizeRead
    have he : pySlice (5 + 0) (9 + 0) buf = [] := by
      unfold pySlice
      rw [List.drop_of_length_le (by omega)]
      simp
    rw [he]
    decide

/-- Witness for the amended C10 theorem at the 3-byte buffer `b"\x5d\x00\x00"`
(signature magic only, size field wholly missing). -/
theorem lzma_adapt_total_witness :
    InitPy.readSignature [0x5D, 0, 0] = .ok .LZMA
    ∧ (InitPy.decompress [0x5D, 0, 0] Except.ok).1 =
        Except.ok (InitPy.formatted [0x5D, 0, 0] 0)
    ∧ InitPy.sizeRead [0x5D, 0, 0] 0 = 0 :=
  ⟨by decide,
   (lzma_adapt_total [0x5D, 0, 0] Except.ok (by decide)).1,
   (lzma_adapt_total [0x5D, 0, 0] Except.ok (by decide)).2 (by decide)⟩

end ScComp
